import Mathlib

/-!
Shallow embedding of the address-resolution and record-pipeline core of the
repository (src/utils/address_standardizer.py, src/utils/data_processor.py,
src/app.py), together with theorems settling the frozen claims about it.

Modelling conventions, stated once here:
* Python strings are Lean `String`s; the relevant character classes are ASCII
  (all concrete inputs in the repository and in this file are ASCII).
* Python regular expressions are embedded by a small backtracking matcher
  (`RE`, `reM`) whose alternatives are tried in the same priority order as the
  CPython engine (lazy star tries the empty match first, greedy star tries the
  longest match first, alternation tries the left branch first); repetition
  bodies in all patterns of the source consume at least one character, so the
  progress-checked star below has exactly the CPython behaviour on them.
* `time.sleep`, logging and the network geocoder are effects; they are modelled
  by explicit event traces and by oracle parameters giving the outcome of each
  external call.
* The md5 cache key `hashlib.md5(address.lower().encode()).hexdigest()` is
  modelled as the identity embedding of the hashed text `address.lower()`:
  the only property of the digest the program relies on is that it is a
  function of exactly that string.
-/

/-- First-success choice on `Option`, mirroring backtracking priority. -/
def oOr (a : Option α) (b : Unit → Option α) : Option α :=
  match a with
  | some x => some x
  | none => b ()

/-- Python whitespace class for `str.strip`, `str.split()` and the regex
class backslash-s, restricted to ASCII. -/
def pySpace (c : Char) : Bool :=
  c = ' ' || c = '\t' || c = '\n' || c = '\r' || c = Char.ofNat 11 || c = Char.ofNat 12

/-- Python `str.strip()`: drop leading and trailing whitespace. -/
def pyStrip (s : String) : String :=
  String.mk (((s.toList.dropWhile pySpace).reverse.dropWhile pySpace).reverse)

/-- Python `str.lower()` restricted to ASCII. -/
def pyLower (s : String) : String :=
  String.mk (s.toList.map Char.toLower)

/-- Splitting on every character satisfying `p`, keeping empty pieces, the
semantics of Python `str.split(sep)` for a one-character separator. -/
def splitByGo (p : Char → Bool) : List Char → List (List Char)
  | [] => [[]]
  | c :: rest =>
    if p c then [] :: splitByGo p rest
    else
      match splitByGo p rest with
      | [] => [[c]]
      | piece :: pieces => (c :: piece) :: pieces

/-- Python `str.split(',')`. -/
def pySplitOnComma (s : String) : List String :=
  (splitByGo (fun c => c = ',') s.toList).map String.mk

/-- Python `','.join(parts)`. -/
def pyJoinComma (parts : List String) : String :=
  String.mk (joinCommaGo (parts.map String.toList))
where
  joinCommaGo : List (List Char) → List Char
    | [] => []
    | [x] => x
    | x :: rest => x ++ ',' :: joinCommaGo rest

/-- Worker for `collapseWs`; the flag records whether the previous character
was part of a whitespace run already replaced by one space. -/
def collapseGo : Bool → List Char → List Char
  | _, [] => []
  | prevWs, c :: rest =>
    if pySpace c then
      if prevWs then collapseGo true rest else ' ' :: collapseGo true rest
    else c :: collapseGo false rest

/-- Python `re.sub` of one-or-more whitespace by a single space: every maximal
whitespace run becomes one space character. -/
def collapseWs (l : List Char) : List Char :=
  collapseGo false l

/-- Characters kept by `_clean_address`: the complement of the removed class
(everything but letters, digits, whitespace, comma, dot, hash, hyphen). -/
def allowedChar (c : Char) : Bool :=
  c.isAlpha || c.isDigit || pySpace c || c = ',' || c = '.' || c = '#' || c = '-'

/-- Regular-expression abstract syntax for the patterns of the source.
`starG` is the greedy star, `starL` the lazy star; `group` is a numbered
capturing group. -/
inductive RE where
  | eps : RE
  | pred : (Char → Bool) → RE
  | seq : RE → RE → RE
  | alt : RE → RE → RE
  | starG : RE → RE
  | starL : RE → RE
  | group : Nat → RE → RE

/-- Captured groups: group index paired with the captured characters.
The most recent capture of an index is the first hit of `find?`. -/
def Groups : Type := List (Nat × List Char)

/-- One layer of the backtracking matcher in continuation-passing style.
`next` is the matcher used for the recursive unrolling of a star; each star
iteration must consume at least one character (all repetition bodies of the
patterns in the source are non-nullable, which is exactly the CPython
behaviour on them). -/
def reGo
    (next : RE → List Char → (List Char → Groups → Option (List Char × Groups)) → Groups →
      Option (List Char × Groups)) :
    RE → List Char → (List Char → Groups → Option (List Char × Groups)) → Groups →
      Option (List Char × Groups)
  | .eps, s, k, g => k s g
  | .pred p, s, k, g =>
    match s with
    | [] => none
    | c :: rest => if p c then k rest g else none
  | .seq r1 r2, s, k, g => reGo next r1 s (fun s1 g1 => reGo next r2 s1 k g1) g
  | .alt r1 r2, s, k, g => oOr (reGo next r1 s k g) (fun _ => reGo next r2 s k g)
  | .group i r, s, k, g =>
    reGo next r s (fun s1 g1 => k s1 ((i, s.take (s.length - s1.length)) :: g1)) g
  | .starG r, s, k, g =>
    oOr (reGo next r s (fun s1 g1 => if s1.length < s.length then next (.starG r) s1 k g1 else none) g)
      (fun _ => k s g)
  | .starL r, s, k, g =>
    oOr (k s g)
      (fun _ =>
        reGo next r s (fun s1 g1 => if s1.length < s.length then next (.starL r) s1 k g1 else none) g)

/-- The backtracking matcher; the fuel bounds the number of star iterations,
each of which consumes at least one input character. -/
def reM : Nat → RE → List Char → (List Char → Groups → Option (List Char × Groups)) → Groups →
    Option (List Char × Groups)
  | 0, _, _, _, _ => none
  | fuel + 1, re, s, k, g => reGo (reM fuel) re s k g

/-- Anchored match of a whole string (the source patterns start with a caret
and end with a dollar), returning the captured groups. -/
def reFullMatch (re : RE) (s : String) : Option Groups :=
  match reM (s.length + 8) re s.toList (fun s1 g => if s1.isEmpty then some (s1, g) else none) [] with
  | some (_, g) => some g
  | none => none

/-- Unanchored search: try a match at each start position from the left, as
`re.search` does, returning the groups of the leftmost match. -/
def reSearchGo (re : RE) : List Char → Option Groups
  | [] =>
    match reM 8 re [] (fun s1 g => some (s1, g)) [] with
    | some (_, g) => some g
    | none => none
  | c :: rest =>
    match reM ((c :: rest).length + 8) re (c :: rest) (fun s1 g => some (s1, g)) [] with
    | some (_, g) => some g
    | none => reSearchGo re rest

/-- Python `re.search` on a string. -/
def reSearch (re : RE) (s : String) : Option Groups :=
  reSearchGo re s.toList

/-- Worker for `reSubFn`: at each position try a match; on a match emit the
replacement and continue after the matched segment, otherwise emit the
character and move on, as `re.sub` does for non-overlapping matches. -/
def reSubGo (re : RE) (repl : Groups → List Char) : Nat → List Char → List Char
  | 0, s => s
  | fuel + 1, s =>
    match reM (s.length + 8) re s (fun s1 g => some (s1, g)) [] with
    | some (s1, g) => repl g ++ reSubGo re repl fuel s1
    | none =>
      match s with
      | [] => []
      | c :: rest => c :: reSubGo re repl fuel rest

/-- Python `re.sub` with a function replacement. -/
def reSubFn (re : RE) (repl : Groups → List Char) (s : String) : String :=
  String.mk (reSubGo re repl (s.length + 1) s.toList)

/-- Captured text of group `i` (the empty string when the group is absent;
in the source patterns every numbered group participates in any match). -/
def getGroup (g : Groups) (i : Nat) : String :=
  match List.find? (fun p => p.1 == i) g with
  | some p => String.mk p.2
  | none => ""

/-- Sequencing of a pattern list. -/
def reSeq : List RE → RE
  | [] => .eps
  | [r] => r
  | r :: rest => .seq r (reSeq rest)

/-- Literal character. -/
def chrRE (c : Char) : RE := .pred (fun x => x = c)

/-- Literal string. -/
def strRE (s : String) : RE := reSeq (s.toList.map chrRE)

/-- Exactly-n repetition, the brace quantifier of the source patterns. -/
def repRE (n : Nat) (r : RE) : RE := reSeq (List.replicate n r)

/-- Greedy one-or-more. -/
def plusG (r : RE) : RE := .seq r (.starG r)

/-- Greedy zero-or-one (prefers the present branch). -/
def optG (r : RE) : RE := .alt r .eps

/-- Python dot: any character except newline. -/
def dotC : RE := .pred (fun c => c ≠ '\n')

/-- Whitespace class of the patterns. -/
def wsC : RE := .pred pySpace

/-- Digit class of the patterns. -/
def digitC : RE := .pred Char.isDigit

/-- The class of the two-letter state code, uppercase A to Z. -/
def upperC : RE := .pred (fun c => 'A' ≤ c && c ≤ 'Z')

/-- The class A to Z and a to z of the state-token pattern. -/
def alphaC : RE := .pred Char.isAlpha

/-- Negated class: any character that is not a comma. -/
def notCommaC : RE := .pred (fun c => c ≠ ',')

/-- Pattern 1 of `address_patterns`: the standard format with zip,
caret (.*?), comma ws* ([^,]+), comma ws* ([A-Z]{2}) ws* (d{5}) (-d{4})? dollar. -/
def pattern1 : RE :=
  reSeq [.group 1 (.starL dotC), chrRE ',', .starG wsC, .group 2 (plusG notCommaC),
    chrRE ',', .starG wsC, .group 3 (repRE 2 upperC), .starG wsC,
    .group 4 (repRE 5 digitC), optG (reSeq [chrRE '-', repRE 4 digitC])]

/-- Pattern 2 of `address_patterns`: the same with an optional non-capturing
county segment ([^,]+ ws* County, ws*) before the state. -/
def pattern2 : RE :=
  reSeq [.group 1 (.starL dotC), chrRE ',', .starG wsC, .group 2 (plusG notCommaC),
    chrRE ',', .starG wsC,
    optG (reSeq [plusG notCommaC, .starG wsC, strRE "County", chrRE ',', .starG wsC]),
    .group 3 (repRE 2 upperC), .starG wsC,
    .group 4 (repRE 5 digitC), optG (reSeq [chrRE '-', repRE 4 digitC])]

/-- Pattern 3 of `address_patterns`: the basic format whose third component is
any non-comma run ([^,]+) instead of a two-letter code. -/
def pattern3 : RE :=
  reSeq [.group 1 (.starL dotC), chrRE ',', .starG wsC, .group 2 (plusG notCommaC),
    chrRE ',', .starG wsC, .group 3 (plusG notCommaC), .starG wsC,
    .group 4 (repRE 5 digitC), optG (reSeq [chrRE '-', repRE 4 digitC])]

/-- The ordered pattern list `self.address_patterns`. -/
def address_patterns : List RE := [pattern1, pattern2, pattern3]

/-- The four address components dictionary of the standardizer. -/
structure Components where
  Address : String
  City : String
  State : String
  Zipcode : String
deriving DecidableEq, Repr

/-- Python `all(components.values())`: every component string is truthy. -/
def allNonEmptyB (c : Components) : Bool :=
  c.Address ≠ "" && c.City ≠ "" && c.State ≠ "" && c.Zipcode ≠ ""

/-- Embedding of `AddressStandardizer._try_regex_patterns`: the first pattern
that matches wins and its four stripped groups are returned, with no further
validation of the captured text. -/
def try_regex_patterns (address : String) : Option Components :=
  match address_patterns.findSome? (fun p => reFullMatch p address) with
  | some g =>
    some ⟨pyStrip (getGroup g 1), pyStrip (getGroup g 2), pyStrip (getGroup g 3),
      pyStrip (getGroup g 4)⟩
  | none => none

/-- The state-token pattern of `_clean_address`:
comma ws* ([A-Za-z]+) ws+ (d{5}). -/
def stateZipCleanRe : RE :=
  reSeq [chrRE ',', .starG wsC, .group 1 (plusG alphaC), plusG wsC, .group 2 (repRE 5 digitC)]

/-- The replacement of `_clean_address`: comma, space, uppercased state token,
space, zip digits. -/
def stateZipRepl (g : Groups) : List Char :=
  [',', ' '] ++ (getGroup g 1).toList.map Char.toUpper ++ [' '] ++ (getGroup g 2).toList

/-- Embedding of `AddressStandardizer._clean_address`: strip and collapse
whitespace, remove the disallowed characters, uppercase state tokens adjacent
to postal codes. The memoizing decorator of the source is irrelevant to a pure
function. -/
def clean_address (address : String) : String :=
  if address = "" then address
  else
    let s1 := String.mk (collapseWs (pyStrip address).toList)
    let s2 := String.mk (s1.toList.filter allowedChar)
    reSubFn stateZipCleanRe stateZipRepl s2

/-- Embedding of `AddressStandardizer._get_cache_key`: `None` for a falsy
address, otherwise the digest of the lowercased raw address (the md5 digest is
modelled as the identity embedding of the hashed text, see the header). -/
def get_cache_key (address : String) : Option String :=
  if address = "" then none else some (pyLower address)

/-- A persisted cache entry, the dictionary
`{'full_address': ..., 'components': ...}` of the source; `components` is
`none` for the Python value `None` (an entry of that shape can occur in a
cache file loaded at startup). -/
structure CacheEntry where
  full_address : String
  components : Option Components
deriving DecidableEq, Repr

/-- The in-memory address cache, keyed by the cache-key text. -/
def Cache : Type := String → Option CacheEntry

/-- The empty (cold-start) cache. -/
def emptyCache : Cache := fun _ => none

/-- Embedding of `AddressStandardizer._cache_result`: store the entry only
when both the key and the components are truthy (a `None` key never stores,
and an absent result never stores; an md5 digest is never the empty string,
so key truthiness coincides with the key not being `None`). The write-through
file save has no effect on the mapping itself. -/
def cache_result (cache_key : Option String) (address : String)
    (components : Option Components) (cache : Cache) : Cache :=
  match cache_key, components with
  | some k, some _ => fun k2 => if k2 = k then some ⟨address, components⟩ else cache k2
  | _, _ => cache

/-- The fields of the structured response of the geocoding service that
`_extract_components` reads; an absent field is the empty string (Python
`dict.get` with default, and the truthiness of `None` and of the empty string
coincide). -/
structure AddressParts where
  house_number : String := ""
  road : String := ""
  street : String := ""
  city : String := ""
  town : String := ""
  village : String := ""
  suburb : String := ""
  neighbourhood : String := ""
  state : String := ""
  postcode : String := ""
deriving DecidableEq, Repr

/-- Python `a or b` on strings: the left operand unless it is falsy. -/
def pyOr (a b : String) : String := if a = "" then b else a

/-- The final acceptance test shared by `_extract_components` and
`_manual_parse`: `if all(components.values()): return components` and
otherwise `None`. -/
def validated (comps : Components) : Option Components :=
  if allNonEmptyB comps then some comps else none

/-- Embedding of `AddressStandardizer._extract_components`: assemble the
street from house number and road, pick the city with the fallback chain,
then accept the result only if all four components are non-empty. -/
def extract_components (p : AddressParts) : Option Components :=
  let street := pyOr p.road p.street
  let street_address :=
    if p.house_number ≠ "" && street ≠ "" then p.house_number ++ " " ++ street
    else pyOr street p.house_number
  let city := pyOr p.city (pyOr p.town (pyOr p.village (pyOr p.suburb p.neighbourhood)))
  validated ⟨pyStrip street_address, pyStrip city, pyStrip p.state, pyStrip p.postcode⟩

/-- The state-zip pattern of `_manual_parse`:
([A-Z]{2}) ws* (d{5} (-d{4})?). -/
def stateZipSearchRe : RE :=
  reSeq [.group 1 (repRE 2 upperC), .starG wsC,
    .group 2 (.seq (repRE 5 digitC) (optG (reSeq [chrRE '-', repRE 4 digitC])))]

/-- Python `str.split()` with no argument: split on whitespace runs and drop
the empty pieces. -/
def pyWhitespaceSplit (s : String) : List String :=
  ((splitByGo pySpace s.toList).map String.mk).filter (fun w => w ≠ "")

/-- Embedding of `AddressStandardizer._manual_parse`: comma-split heuristics
with a state-zip search on the last segment, validated so that a result is
returned only when all four components are non-empty. -/
def manual_parse (full_address : String) : Option Components :=
  let parts := pySplitOnComma full_address
  if parts.length ≥ 3 then
    let last_part := pyStrip ((parts.getLast?).getD "")
    let state_zip :=
      match reSearch stateZipSearchRe last_part with
      | some g => (getGroup g 1, getGroup g 2)
      | none =>
        let pieces := pyWhitespaceSplit last_part
        ((pieces.head?).getD "", if pieces.length > 1 then (pieces.getLast?).getD "" else "")
    let city := pyStrip ((parts.get? (parts.length - 2)).getD "")
    let address := pyStrip (pyJoinComma (parts.dropLast.dropLast))
    validated ⟨address, city, state_zip.1, state_zip.2⟩
  else none

/-- Embedding of `AddressStandardizer.parse_normalized_address`. The geocode
step is an oracle parameter `geo` giving the outcome of `_geocode_address` on
the cleaned address (the retry mechanics inside that call are modelled
separately by `geocode_address`). The cache key is computed from the raw
input before cleaning; under the guard the input is non-empty, so the key of
`_get_cache_key` is exactly the digest of the lowercased raw input. Returns
the components and the cache after any write. -/
def parse_normalized_address (geo : String → Option Components) (cache : Cache)
    (full_address : String) : Option Components × Cache :=
  if full_address = "" then (none, cache)
  else
    let k := pyLower full_address
    match cache k with
    | some entry => (entry.components, cache)
    | none =>
      let cleaned := clean_address full_address
      match try_regex_patterns cleaned with
      | some comps => (some comps, cache_result (some k) cleaned (some comps) cache)
      | none =>
        match geo cleaned with
        | some comps => (some comps, cache_result (some k) cleaned (some comps) cache)
        | none =>
          match manual_parse cleaned with
          | some comps => (some comps, cache_result (some k) cleaned (some comps) cache)
          | none => (none, cache)

/-- Embedding of `AddressStandardizer.standardize`: return the cached entry on
a hit; on a miss run the parsing chain and, when it resolved, write the result
under the key of the raw address. -/
def standardize (geo : String → Option Components) (cache : Cache) (address : String) :
    CacheEntry × Cache :=
  if address = "" then (⟨address, none⟩, cache)
  else
    let k := pyLower address
    match cache k with
    | some entry => (entry, cache)
    | none =>
      let pr := parse_normalized_address geo cache address
      let result : CacheEntry := ⟨address, pr.1⟩
      match pr.1 with
      | some _ => (result, cache_result (some k) address pr.1 pr.2)
      | none => (result, pr.2)

/-- Outcome of one geocoder invocation inside `_geocode_address`:
a structured response, no usable location, a transient exception
(`GeocoderTimedOut` or `GeocoderQuotaExceeded`), or any other exception. -/
inductive GeoAttempt where
  | found (parts : AddressParts)
  | notFound
  | transientError
  | otherError
deriving DecidableEq, Repr

/-- Observable timing events of `_geocode_address`; `waitErr n` is the backoff
sleep `time.sleep(self.error_wait * n)` where `n` is the one-based attempt
number (the pre-call jitter sleep is not recorded: no claim concerns it). -/
inductive GeoEvent where
  | call (attempt : Nat)
  | waitErr (attemptNumber : Nat)
deriving DecidableEq, Repr

/-- Embedding of the retry loop of `AddressStandardizer._geocode_address`,
one recursive step per loop iteration. `attempt` is the zero-based loop index,
`outcomes` the oracle for the successive geocoder invocations. A structured
response returns `extract_components` of it immediately (even when that
validation fails); no usable location just continues the loop; a transient
exception sleeps `error_wait * (attempt + 1)` unless it was the final attempt
and continues; any other exception breaks out of the loop with no result. -/
def geocode_go (max_retries : Nat) (attempt : Nat) :
    List GeoAttempt → Option Components × List GeoEvent
  | [] => (none, [])
  | o :: rest =>
    if attempt < max_retries then
      match o with
      | .found parts => (extract_components parts, [.call attempt])
      | .notFound =>
        let r := geocode_go max_retries (attempt + 1) rest
        (r.1, .call attempt :: r.2)
      | .transientError =>
        let r := geocode_go max_retries (attempt + 1) rest
        if attempt < max_retries - 1 then (r.1, .call attempt :: .waitErr (attempt + 1) :: r.2)
        else (r.1, .call attempt :: r.2)
      | .otherError => (none, [.call attempt])
    else (none, [])

/-- Embedding of `AddressStandardizer._geocode_address`: the retry loop
started at attempt 0; `max_retries` is `self.max_retries` (5 in the source). -/
def geocode_address (max_retries : Nat) (outcomes : List GeoAttempt) :
    Option Components × List GeoEvent :=
  geocode_go max_retries 0 outcomes

/-- Number of geocoder invocations recorded in a trace. -/
def callCount (evs : List GeoEvent) : Nat :=
  (evs.filter fun e => match e with | .call _ => true | _ => false).length

/-- Expected trace of a run whose every attempt raises a transient error:
starting at attempt `a` with `remaining` loop iterations left, each attempt is
a call followed by the backoff wait, except the final attempt which has no
wait after it. -/
def transientTraceGo (max_retries : Nat) : Nat → Nat → List GeoEvent
  | _, 0 => []
  | a, remaining + 1 =>
    (if a < max_retries - 1 then [.call a, .waitErr (a + 1)] else [.call a]) ++
      transientTraceGo max_retries (a + 1) remaining

/-- Expected all-transient trace of a full run. -/
def transientTrace (max_retries : Nat) : List GeoEvent :=
  transientTraceGo max_retries 0 max_retries

/-- A pipeline row as the tax-class stages see it: its property-class code and
an opaque payload standing for the other columns. -/
structure PRecord (α : Type) where
  propertyClass : String
  payload : α
deriving DecidableEq, Repr

/-- The alias table `self.property_class_standardization` of `DataProcessor`. -/
def property_class_standardization : List (String × String) :=
  [("CO", "C0"), ("C0", "C0"), ("B1", "B1")]

/-- Embedding of `DataProcessor.standardize_property_class`: falsy codes pass
through, known aliases map to their canonical form, all other codes pass
through unchanged. -/
def standardize_property_class (property_class : String) : String :=
  if property_class = "" then property_class
  else
    match property_class_standardization.lookup property_class with
    | some v => v
    | none => property_class

/-- The literal `VALID_PROPERTY_CLASSES` of src/app.py line 70:
`["CD", "B9", "B2", "B3", "CO", "C0" "B1", "C1", "A9", "C2"]`.
Between `"C0"` and `"B1"` the comma is missing, and Python concatenates the
two adjacent string literals; the append below is that concatenation. -/
def VALID_PROPERTY_CLASSES : List String :=
  ["CD", "B9", "B2", "B3", "CO", "C0" ++ "B1", "C1", "A9", "C2"]

/-- The class standardization applied to one row, as in the
`df["Property class"].apply(...)` line of `analyze_property_classes`. -/
def stdRecord (r : PRecord α) : PRecord α :=
  { r with propertyClass := standardize_property_class r.propertyClass }

/-- Embedding of `DataProcessor.analyze_property_classes` at the level the
claims need: after standardizing the class column, the first component is the
retained frame (classes in the whitelist) and the second the complement, the
rows the statistics count under `invalid_classes` and that are filtered out. -/
def analyze_property_classes (rows : List (PRecord α)) :
    List (PRecord α) × List (PRecord α) :=
  let std := rows.map stdRecord
  (std.filter (fun r => VALID_PROPERTY_CLASSES.contains r.propertyClass),
   std.filter (fun r => !(VALID_PROPERTY_CLASSES.contains r.propertyClass)))

/-- A row as the deduplication stage sees it: the resolved full address, the
sale date after `pd.to_datetime(..., errors='coerce')` (`none` is `NaT`), and
an opaque payload standing for the other columns. -/
structure SRecord where
  fullAddress : String
  saleDate : Option Nat
  payload : Nat
deriving DecidableEq, Repr

/-- Order key of the sale-date sort: `NaT` strictly below every date (pandas
puts missing dates last when sorting descending). -/
def dKeyN : Option Nat → Nat
  | none => 0
  | some d => d + 1

/-- The descending-by-date order used by
`df.sort_values('Sale date', ascending=False)`: `x` may come before `y` when
the date of `y` is not later. -/
def dateGE (x y : SRecord) : Prop := dKeyN y.saleDate ≤ dKeyN x.saleDate

instance : DecidableRel dateGE :=
  fun x y => inferInstanceAs (Decidable (dKeyN y.saleDate ≤ dKeyN x.saleDate))

instance : IsTotal SRecord dateGE :=
  ⟨fun x y => Nat.le_total (dKeyN y.saleDate) (dKeyN x.saleDate)⟩

instance : IsTrans SRecord dateGE :=
  ⟨fun _ _ _ h1 h2 => Nat.le_trans h2 h1⟩

/-- Worker of `drop_duplicates(subset=['Full Address'], keep='first')`: keep
each row whose full address was not seen before it. -/
def dedupKeepFirst (seen : List String) : List SRecord → List SRecord
  | [] => []
  | r :: rest =>
    if r.fullAddress ∈ seen then dedupKeepFirst seen rest
    else r :: dedupKeepFirst (r.fullAddress :: seen) rest

/-- Embedding of `DataProcessor.remove_duplicates` for frames that have the
sale-date column: sort by sale date descending (missing dates last), then drop
all but the first row of every full address. The source sorts with an
unstable quicksort; the insertion sort used here agrees with it on every
property that does not depend on the order of date ties, and no theorem below
depends on tie order. -/
def remove_duplicates (rows : List SRecord) : List SRecord :=
  dedupKeepFirst [] (List.insertionSort dateGE rows)

/-- Columns dropped by `filter_data` after the class analysis:
`drop(columns=["Block & Lot"], errors="ignore")`. -/
def filterDataColumns (cols : List String) : List String :=
  cols.filter (fun c => c ≠ "Block & Lot")

/-- Assignment `df[c] = ...` on the column list: a new column is appended at
the end, an existing one keeps its position. -/
def addColumn (cols : List String) (c : String) : List String :=
  if c ∈ cols then cols else cols ++ [c]

/-- The component column names `self.address_components`. -/
def addressComponents : List String := ["Address", "City", "State", "Zipcode"]

/-- Column-order effect of `DataProcessor.standardize_addresses`: create the
full-address column if missing, create missing component columns, then
reorder to full address and components first with the remaining columns in
their existing order. Row contents do not affect the column list. -/
def standardizeAddressesColumns (cols : List String) : List String :=
  let cols1 := addColumn cols "Full Address"
  let cols2 := addressComponents.foldl addColumn cols1
  let front := "Full Address" :: addressComponents
  front ++ cols2.filter (fun c => !(front.contains c))

/-- The seven columns placed first by the final reordering of
`process_file`. -/
def outputFront : List String :=
  ["Full Address", "Address", "City", "State", "Zipcode", "Property class",
   "Property Class Description"]

/-- Column-order effect of `DataProcessor.process_file` on a successful run:
drop the block-and-lot column, run the standardization reorder (deduplication
keeps columns), append the processed-date and class-description columns, then
move the seven output columns to the front with every remaining column after
them in its existing order. -/
def processFileColumns (cols : List String) : List String :=
  let c1 := filterDataColumns cols
  let c2 := standardizeAddressesColumns c1
  let c3 := addColumn c2 "Processed Date"
  let c4 := addColumn c3 "Property Class Description"
  outputFront ++ c4.filter (fun c => !(outputFront.contains c))

/-- Control-flow skeleton of `DataProcessor.process_file`: `loadResult` is the
outcome of `load_data` (an exception message or the loaded rows), and
`pipeline` abstracts the standardization, deduplication and annotation stages,
which no claim about this function constrains. Returns the value returned to
the caller together with the decisive status messages: a load failure is
caught and reported as an error message with the return value `None`; a
filtering stage that retains no rows reports the no-valid-classes message and
returns `None`; otherwise the processed frame is returned. -/
def process_file (loadResult : Except String (List (PRecord Nat)))
    (pipeline : List (PRecord Nat) → List (PRecord Nat)) :
    Option (List (PRecord Nat)) × List String :=
  match loadResult with
  | .error e => (none, ["Error: " ++ e])
  | .ok rows =>
    let filtered := (analyze_property_classes rows).1
    if filtered.length = 0 then (none, ["❌ No valid property classes found."])
    else (some (pipeline filtered), ["✅ Processing complete!"])

/-- Claim C2: cache upgrade-only invariant. A `_cache_result` write with an
absent (Unresolved) result never changes the cache, so a Resolved entry is
never replaced by an Unresolved one; and any key a write does change holds an
entry with present (non-None) components. -/
theorem claim_C2 (ck : Option String) (addr : String) (comps : Option Components)
    (cache : Cache) :
    cache_result ck addr none cache = cache
    ∧ ∀ K, cache_result ck addr comps cache K = cache K
        ∨ ∃ c, cache_result ck addr comps cache K = some ⟨addr, some c⟩ := by
  constructor
  · cases ck <;> rfl
  · intro K
    match ck, comps with
    | none, _ => exact Or.inl rfl
    | some k, none => exact Or.inl rfl
    | some k, some c =>
      by_cases hK : K = k
      · exact Or.inr ⟨c, by simp [cache_result, hK]⟩
      · exact Or.inl (by simp [cache_result, hK])

/-- Claim C6 (amended): an Unresolved outcome of the parsing chain is not
written to the cache; `parse_normalized_address` leaves the cache unchanged
whenever the chain produced no components. -/
theorem claim_C6 (geo : String → Option Components) (cache : Cache) (addr : String)
    (h : (parse_normalized_address geo cache addr).1 = none) :
    (parse_normalized_address geo cache addr).2 = cache := by
  by_cases he : addr = ""
  · simp [parse_normalized_address, he]
  · simp only [parse_normalized_address, if_neg he] at h ⊢
    cases hc : cache (pyLower addr) with
    | some entry => simp [hc] at h ⊢
    | none =>
      simp only [hc] at h ⊢
      cases hre : try_regex_patterns (clean_address addr) with
      | some c => simp [hre] at h
      | none =>
        simp only [hre] at h ⊢
        cases hgeo : geo (clean_address addr) with
        | some c => simp [hgeo] at h
        | none =>
          simp only [hgeo] at h ⊢
          cases hman : manual_parse (clean_address addr) with
          | some c => simp [hman] at h
          | none => simp [hman]

/-- Claim C6, counterexample to the claim as stated: on an address on which
the whole chain fails, the Unresolved outcome is not written to the cache —
after the run the cache still has no entry under the key of the input. -/
theorem claim_C6_counterexample :
    (parse_normalized_address (fun _ => none) emptyCache "hello").1 = none
    ∧ ((parse_normalized_address (fun _ => none) emptyCache "hello").2) "hello" = none := by
  exact ⟨by decide, by decide⟩

/-- Witness for claim C6: the amended theorem applied at a concrete
unresolvable address. -/
theorem claim_C6_witness :
    (parse_normalized_address (fun _ => none) emptyCache "hello").2 = emptyCache :=
  claim_C6 (fun _ => none) emptyCache "hello" (by decide)

/-- A value accepted by the shared validation has all four components
non-empty. -/
theorem validated_some {x y : Components} (h : validated x = some y) :
    allNonEmptyB y = true := by
  unfold validated at h
  split at h
  · cases h; assumption
  · cases h

/-- Claim C1 (amended): a regex strategy result is accepted by the chain
whenever one of the three patterns matches, with no check that the captured
components are non-empty; the all-components-non-empty validation is applied
only by the geocode extraction and by the manual strategy. -/
theorem claim_C1 (geo : String → Option Components) (cache : Cache) (addr : String)
    (c : Components) (hne : addr ≠ "") (hmiss : cache (pyLower addr) = none)
    (hre : try_regex_patterns (clean_address addr) = some c) :
    (parse_normalized_address geo cache addr).1 = some c
    ∧ (∀ p c2, extract_components p = some c2 → allNonEmptyB c2 = true)
    ∧ (∀ s c3, manual_parse s = some c3 → allNonEmptyB c3 = true) := by
  refine ⟨?_, ?_, ?_⟩
  · simp [parse_normalized_address, if_neg hne, hmiss, hre]
  · intro p c2 h
    simp only [extract_components] at h
    exact validated_some h
  · intro s c3 h
    simp only [manual_parse] at h
    split at h
    · exact validated_some h
    · cases h

/-- Claim C1, counterexample to the claim as stated: on this input pattern 1
matches with an empty street capture, yet the chain accepts the regex result
(the street component is empty) instead of treating it as a non-match and
moving on to the geocode strategy — the geocode oracle here would have
returned a fully populated, different result. -/
theorem claim_C1_counterexample :
    try_regex_patterns (clean_address ", City, NY 12345") = some ⟨"", "City", "NY", "12345"⟩
    ∧ (parse_normalized_address (fun _ => some ⟨"1 Geo", "GeoCity", "NY", "00000"⟩)
        emptyCache ", City, NY 12345").1 = some ⟨"", "City", "NY", "12345"⟩ := by
  exact ⟨by decide, by decide⟩

/-- Witness for claim C1: the amended theorem applied at a concrete address
that pattern 1 matches. -/
theorem claim_C1_witness :
    try_regex_patterns (clean_address "123 Main St, Springfield, NY 10001")
      = some ⟨"123 Main St", "Springfield", "NY", "10001"⟩
    ∧ (parse_normalized_address (fun _ => none) emptyCache
        "123 Main St, Springfield, NY 10001").1
      = some ⟨"123 Main St", "Springfield", "NY", "10001"⟩ :=
  ⟨by decide,
   (claim_C1 (fun _ => none) emptyCache "123 Main St, Springfield, NY 10001"
     ⟨"123 Main St", "Springfield", "NY", "10001"⟩ (by decide) rfl (by decide)).1⟩

/-- Claim C4: idempotence of resolution. When a call of `standardize` on `x`
produced a Resolved result, a subsequent call on the same string returns the
same normalized components, leaves the cache unchanged, and is independent of
the geocode oracle (the parsing chain is not re-run: the cache hit
short-circuits it). -/
theorem claim_C4 (geo geo2 geo3 : String → Option Components) (cache : Cache) (x : String)
    (h : ((standardize geo cache x).1).components.isSome = true) :
    ((standardize geo2 (standardize geo cache x).2 x).1).components
      = ((standardize geo cache x).1).components
    ∧ (standardize geo2 (standardize geo cache x).2 x).2 = (standardize geo cache x).2
    ∧ (standardize geo2 (standardize geo cache x).2 x).1
      = (standardize geo3 (standardize geo cache x).2 x).1 := by
  by_cases he : x = ""
  · simp [standardize, he] at h
  · cases hc : cache (pyLower x) with
    | some entry =>
      simp only [standardize, if_neg he, hc]
      exact ⟨trivial, trivial, trivial⟩
    | none =>
      cases hp : (parse_normalized_address geo cache x).1 with
      | none => simp [standardize, if_neg he, hc, hp] at h
      | some c =>
        simp only [standardize, if_neg he, hc, hp]
        have hk : cache_result (some (pyLower x)) x
            (some c) (parse_normalized_address geo cache x).2 (pyLower x)
            = some ⟨x, some c⟩ := by
          simp [cache_result]
        simp only [hk]
        exact ⟨trivial, trivial, trivial⟩

/-- Witness for claim C4: the theorem applied at an address that the regex
strategy resolves, with a second geocode oracle that would have produced a
different result had the chain been re-run. -/
theorem claim_C4_witness :
    (((standardize (fun _ => none) emptyCache "123 Main St, Springfield, NY 10001").1).components).isSome = true
    ∧ ((standardize (fun _ => some ⟨"9 Other", "Elsewhere", "CA", "90210"⟩)
          ((standardize (fun _ => none) emptyCache "123 Main St, Springfield, NY 10001").2)
          "123 Main St, Springfield, NY 10001").1).components
      = ((standardize (fun _ => none) emptyCache "123 Main St, Springfield, NY 10001").1).components :=
  ⟨by decide,
   (claim_C4 (fun _ => none) (fun _ => some ⟨"9 Other", "Elsewhere", "CA", "90210"⟩)
     (fun _ => none) emptyCache "123 Main St, Springfield, NY 10001" (by decide)).1⟩

/-- Claim C5 (amended): the cache key is computed from the raw input before
cleaning — it is the digest of the lowercased raw address — so two raw
strings equal up to letter case share one cache entry: after a resolving call
on `a`, a call on such a `b` is served from the same entry. -/
theorem claim_C5 (geo geo2 : String → Option Components) (cache : Cache) (a b : String)
    (ha : a ≠ "") (hb : b ≠ "") (hl : pyLower a = pyLower b)
    (h : ((standardize geo cache a).1).components.isSome = true) :
    ((standardize geo2 (standardize geo cache a).2 b).1).components
      = ((standardize geo cache a).1).components := by
  cases hc : cache (pyLower a) with
  | some entry =>
    have hcb : cache (pyLower b) = some entry := by rw [← hl]; exact hc
    simp only [standardize, if_neg ha, if_neg hb, hc, hcb]
  | none =>
    by_cases he : a = ""
    · exact absurd he ha
    · cases hp : (parse_normalized_address geo cache a).1 with
      | none => simp [standardize, if_neg ha, hc, hp] at h
      | some c =>
        simp only [standardize, if_neg ha, if_neg hb, hc, hp]
        have hk : cache_result (some (pyLower a)) a
            (some c) (parse_normalized_address geo cache a).2 (pyLower b)
            = some ⟨a, some c⟩ := by
          simp [cache_result, ← hl]
        simp only [hk]

/-- Claim C5, counterexample to the claim as stated: these two raw addresses
clean to the same string, yet their cache keys differ, and the key of the
first is not the digest of its cleaned lowercased form — the key is computed
before cleaning, from the raw string. -/
theorem claim_C5_counterexample :
    clean_address "12 Oak  St, Albany, NY 12210" = clean_address "12 Oak St, Albany, NY 12210"
    ∧ get_cache_key "12 Oak  St, Albany, NY 12210" ≠ get_cache_key "12 Oak St, Albany, NY 12210"
    ∧ get_cache_key "12 Oak  St, Albany, NY 12210"
        ≠ some (pyLower (clean_address "12 Oak  St, Albany, NY 12210")) := by
  exact ⟨by decide, by decide, by decide⟩

/-- Witness for claim C5: the amended theorem applied to two addresses that
differ only in letter case; the second call is served from the entry the
first wrote. -/
theorem claim_C5_witness :
    pyLower "123 Main St, Springfield, NY 10001" = pyLower "123 MAIN ST, SPRINGFIELD, NY 10001"
    ∧ ((standardize (fun _ => none)
          ((standardize (fun _ => none) emptyCache "123 Main St, Springfield, NY 10001").2)
          "123 MAIN ST, SPRINGFIELD, NY 10001").1).components
      = ((standardize (fun _ => none) emptyCache "123 Main St, Springfield, NY 10001").1).components :=
  ⟨by decide,
   claim_C5 (fun _ => none) (fun _ => none) emptyCache
     "123 Main St, Springfield, NY 10001" "123 MAIN ST, SPRINGFIELD, NY 10001"
     (by decide) (by decide) (by decide) (by decide)⟩

/-- A leading call event adds one to the call count. -/
theorem callCount_call_cons (a : Nat) (evs : List GeoEvent) :
    callCount (GeoEvent.call a :: evs) = callCount evs + 1 := by
  simp [callCount]

/-- A backoff wait event does not change the call count. -/
theorem callCount_wait_cons (n : Nat) (evs : List GeoEvent) :
    callCount (GeoEvent.waitErr n :: evs) = callCount evs := by
  simp [callCount]

/-- On an all-transient run the retry loop produces exactly the expected
trace: one call per attempt with the backoff wait after every non-final
attempt, and no result. -/
theorem geocode_go_all_transient (outcomes : List GeoAttempt) : ∀ (m a : Nat),
    (∀ o ∈ outcomes, o = GeoAttempt.transientError) →
    m ≤ a + outcomes.length →
    geocode_go m a outcomes = (none, transientTraceGo m a (m - a)) := by
  induction outcomes with
  | nil =>
    intro m a _ hle
    have h0 : m - a = 0 := by simp at hle; omega
    simp [geocode_go, h0, transientTraceGo]
  | cons o rest ih =>
    intro m a hall hle
    have ho : o = GeoAttempt.transientError := hall o (by simp)
    subst ho
    have hrest : ∀ o ∈ rest, o = GeoAttempt.transientError := by
      intro x hx
      exact hall x (List.mem_cons_of_mem _ hx)
    have hle' : m ≤ a + 1 + rest.length := by simp at hle; omega
    by_cases ha : a < m
    · have h1 : m - a = (m - (a + 1)) + 1 := by omega
      have hIH := ih m (a + 1) hrest hle'
      rw [h1]
      simp only [geocode_go, if_pos ha, hIH, transientTraceGo]
      by_cases hb : a < m - 1
      · simp [hb]
      · simp [hb]
    · have h0 : m - a = 0 := by omega
      simp [geocode_go, ha, h0, transientTraceGo]

/-- The retry loop started at attempt `a` makes at most `m - a` geocoder
calls. -/
theorem geocode_go_callCount (outcomes : List GeoAttempt) : ∀ (m a : Nat),
    callCount (geocode_go m a outcomes).2 ≤ m - a := by
  induction outcomes with
  | nil => intro m a; simp [geocode_go, callCount]
  | cons o rest ih =>
    intro m a
    by_cases ha : a < m
    · cases o with
      | found parts =>
        simp only [geocode_go, if_pos ha]
        simp [callCount]
        omega
      | notFound =>
        simp only [geocode_go, if_pos ha]
        have := ih m (a + 1)
        simp only [callCount_call_cons]
        omega
      | transientError =>
        simp only [geocode_go, if_pos ha]
        have := ih m (a + 1)
        by_cases hb : a < m - 1
        · simp only [if_pos hb, callCount_call_cons, callCount_wait_cons]
          omega
        · simp only [if_neg hb, callCount_call_cons]
          omega
      | otherError =>
        simp only [geocode_go, if_pos ha]
        simp [callCount]
        omega
    · simp [geocode_go, ha, callCount]

/-- Claim C8: retry policy of `_geocode_address`. A non-transient failure
aborts immediately after its single call, with no further attempt and no
backoff wait; an all-transient run makes one call per loop attempt with a
backoff wait of `error_wait * attemptNumber` between successive attempts and
none after the final one, and returns an absent result when the budget is
exhausted; and no run ever makes more than `max_retries` geocoder calls. -/
theorem claim_C8 :
    (∀ (m a : Nat) (rest : List GeoAttempt), a < m →
      geocode_go m a (GeoAttempt.otherError :: rest) = (none, [GeoEvent.call a]))
    ∧ (∀ (m : Nat) (outcomes : List GeoAttempt),
        (∀ o ∈ outcomes, o = GeoAttempt.transientError) →
        m ≤ outcomes.length →
        geocode_address m outcomes = (none, transientTrace m))
    ∧ (∀ (m : Nat) (outcomes : List GeoAttempt),
        callCount (geocode_address m outcomes).2 ≤ m) := by
  refine ⟨?_, ?_, ?_⟩
  · intro m a rest ha
    simp [geocode_go, ha]
  · intro m outcomes hall hlen
    have h := geocode_go_all_transient outcomes m 0 hall (by omega)
    simpa [geocode_address, transientTrace] using h
  · intro m outcomes
    have h := geocode_go_callCount outcomes m 0
    simpa [geocode_address] using h

/-- Witness for claim C8: the theorem applied at `max_retries = 5` (the value
configured in the source) with concrete outcome sequences. -/
theorem claim_C8_witness :
    geocode_go 5 0 [GeoAttempt.otherError] = (none, [GeoEvent.call 0])
    ∧ geocode_address 5 (List.replicate 5 GeoAttempt.transientError) = (none, transientTrace 5)
    ∧ callCount (geocode_address 5 (List.replicate 9 GeoAttempt.notFound)).2 ≤ 5 :=
  ⟨claim_C8.1 5 0 [] (by decide),
   claim_C8.2.1 5 (List.replicate 5 GeoAttempt.transientError) (by decide) (by decide),
   claim_C8.2.2 5 (List.replicate 9 GeoAttempt.notFound)⟩

/-- Claim C3: the whitelist literal of src/app.py line 70 has nine elements —
the missing comma makes Python concatenate the adjacent literals into the
single element C0B1, so neither C0 nor B1 is whitelisted — and therefore
every record whose class standardizes to C0 (including the raw alias CO) or
whose class is B1 lands in the invalid partition of
`analyze_property_classes` and is excluded from the retained frame. -/
theorem claim_C3 :
    VALID_PROPERTY_CLASSES.contains "C0B1" = true
    ∧ VALID_PROPERTY_CLASSES.contains "C0" = false
    ∧ VALID_PROPERTY_CLASSES.contains "B1" = false
    ∧ VALID_PROPERTY_CLASSES.length = 9
    ∧ standardize_property_class "CO" = "C0"
    ∧ ∀ (rows : List (PRecord Nat)) (r : PRecord Nat), r ∈ rows →
        (standardize_property_class r.propertyClass = "C0"
          ∨ standardize_property_class r.propertyClass = "B1") →
        stdRecord r ∈ (analyze_property_classes rows).2
        ∧ stdRecord r ∉ (analyze_property_classes rows).1 := by
  refine ⟨by decide, by decide, by decide, by decide, by decide, ?_⟩
  intro rows r hmem hcls
  have hfalse : (stdRecord r).propertyClass ∉ VALID_PROPERTY_CLASSES := by
    rcases hcls with h | h <;> simp only [stdRecord] <;> rw [h] <;> decide
  constructor
  · simp only [analyze_property_classes]
    refine List.mem_filter.mpr ⟨List.mem_map_of_mem _ hmem, ?_⟩
    simpa using hfalse
  · intro hin
    have hc := (List.mem_filter.mp hin).2
    exact hfalse (by simpa using hc)

/-- Witness for claim C3: the theorem applied to a one-row batch whose class
is the raw alias CO; the standardized row is in the invalid partition. -/
theorem claim_C3_witness :
    stdRecord (⟨"CO", 0⟩ : PRecord Nat) ∈ (analyze_property_classes [(⟨"CO", 0⟩ : PRecord Nat)]).2
    ∧ stdRecord (⟨"CO", 0⟩ : PRecord Nat) ∉ (analyze_property_classes [(⟨"CO", 0⟩ : PRecord Nat)]).1 :=
  claim_C3.2.2.2.2.2 [⟨"CO", 0⟩] ⟨"CO", 0⟩ (by decide) (Or.inl (by decide))

/-- Claim C9 (amended): a batch with no whitelisted-class row makes
`process_file` return the same `None` value a hard load failure produces;
the two cases are told apart only by the status message reported to the
callback, not by the returned signal. -/
theorem claim_C9 (rows : List (PRecord Nat))
    (pipeline pipeline2 : List (PRecord Nat) → List (PRecord Nat)) (e : String)
    (h : ∀ r ∈ rows,
      VALID_PROPERTY_CLASSES.contains (standardize_property_class r.propertyClass) = false) :
    process_file (Except.ok rows) pipeline = (none, ["❌ No valid property classes found."])
    ∧ process_file (Except.error e) pipeline2 = (none, ["Error: " ++ e]) := by
  constructor
  · have hf : (rows.map stdRecord).filter
        (fun r => VALID_PROPERTY_CLASSES.contains r.propertyClass) = [] := by
      apply List.filter_eq_nil_iff.mpr
      intro x hx
      obtain ⟨r, hr, rfl⟩ := List.mem_map.mp hx
      have hh := h r hr
      simpa [stdRecord] using hh
    simp only [process_file, analyze_property_classes, hf]
    simp
  · rfl

/-- Claim C9, counterexample to the claim as stated: the value returned for a
batch with zero valid-class rows is the very value returned for an unreadable
input file — `None` in both cases, so the empty-result signal is not
distinguishable from the hard-failure signal. -/
theorem claim_C9_counterexample :
    (process_file (Except.ok [(⟨"Z9", 0⟩ : PRecord Nat)]) id).1
      = (process_file (Except.error "unreadable input file") id).1
    ∧ (process_file (Except.ok [(⟨"Z9", 0⟩ : PRecord Nat)]) id).1 = none := by
  exact ⟨by decide, by decide⟩

/-- Witness for claim C9: the amended theorem applied to a concrete one-row
invalid batch and a concrete load failure. -/
theorem claim_C9_witness :
    process_file (Except.ok [(⟨"Z9", 0⟩ : PRecord Nat)]) id
      = (none, ["❌ No valid property classes found."])
    ∧ process_file (Except.error "unreadable input file") id
      = (none, ["Error: " ++ "unreadable input file"]) :=
  claim_C9 [⟨"Z9", 0⟩] id id "unreadable input file" (by decide)

/-- Membership after a column assignment: the column was already there or it
is the assigned one. -/
theorem mem_addColumn {x c : String} {cols : List String} (h : x ∈ addColumn cols c) :
    x ∈ cols ∨ x = c := by
  unfold addColumn at h
  split at h
  · exact Or.inl h
  · rcases List.mem_append.mp h with h1 | h1
    · exact Or.inl h1
    · simp at h1
      exact Or.inr h1

/-- The processed-date column is not created by the standardization reorder:
if it is absent from the input columns it is absent afterwards. -/
theorem pd_not_mem_std (cols : List String) (h : "Processed Date" ∉ cols) :
    "Processed Date" ∉ standardizeAddressesColumns cols := by
  intro hin
  unfold standardizeAddressesColumns at hin
  rcases List.mem_append.mp hin with h1 | h1
  · simp [addressComponents] at h1
  · have h2 := List.mem_of_mem_filter h1
    simp only [addressComponents, List.foldl] at h2
    rcases mem_addColumn h2 with h3 | h3
    rcases mem_addColumn h3 with h4 | h4
    rcases mem_addColumn h4 with h5 | h5
    rcases mem_addColumn h5 with h6 | h6
    rcases mem_addColumn h6 with h7 | h7
    · exact h h7
    · exact absurd h7 (by decide)
    · exact absurd h6 (by decide)
    · exact absurd h5 (by decide)
    · exact absurd h4 (by decide)
    · exact absurd h3 (by decide)

/-- Filtering drops a column assignment whose column fails the filter. -/
theorem filter_addColumn_of_neg {q : String → Bool} {l : List String} {c : String}
    (hq : q c = false) : (addColumn l c).filter q = l.filter q := by
  unfold addColumn
  split
  · rfl
  · rw [List.filter_append]
    simp [hq]

/-- Claim C10 (amended): on a successful run the output columns are the seven
columns Full Address, Address, City, State, Zipcode, Property class, Property
Class Description in this order, then the passthrough columns in their
standardized order, and the Processed Date column last — after the
passthrough columns, not before them. -/
theorem claim_C10 (cols : List String) (h : "Processed Date" ∉ cols) :
    processFileColumns cols
      = outputFront
        ++ (standardizeAddressesColumns (filterDataColumns cols)).filter
             (fun c => !(outputFront.contains c))
        ++ ["Processed Date"] := by
  have hpd1 : "Processed Date" ∉ filterDataColumns cols :=
    fun hin => h (List.mem_of_mem_filter hin)
  have hpd : "Processed Date" ∉ standardizeAddressesColumns (filterDataColumns cols) :=
    pd_not_mem_std _ hpd1
  simp only [processFileColumns]
  have h3 : addColumn (standardizeAddressesColumns (filterDataColumns cols)) "Processed Date"
      = standardizeAddressesColumns (filterDataColumns cols) ++ ["Processed Date"] := by
    unfold addColumn
    rw [if_neg hpd]
  rw [h3, filter_addColumn_of_neg (by decide), List.filter_append]
  simp [List.append_assoc]
  decide

/-- Claim C10, counterexample to the claim as stated: with the passthrough
column Sale date present, the output order puts Processed Date after the
passthrough column, not before it as the claim requires. -/
theorem claim_C10_counterexample :
    processFileColumns ["Address", "City", "State", "Zipcode", "Property class", "Sale date"]
      = ["Full Address", "Address", "City", "State", "Zipcode", "Property class",
         "Property Class Description", "Sale date", "Processed Date"]
    ∧ processFileColumns ["Address", "City", "State", "Zipcode", "Property class", "Sale date"]
      ≠ ["Full Address", "Address", "City", "State", "Zipcode", "Property class",
         "Property Class Description", "Processed Date", "Sale date"] := by
  exact ⟨by decide, by decide⟩

/-- Witness for claim C10: the amended theorem applied to a concrete input
column list with one passthrough column. -/
theorem claim_C10_witness :
    processFileColumns ["Address", "City", "State", "Zipcode", "Property class", "Sale date"]
      = outputFront
        ++ (standardizeAddressesColumns
              (filterDataColumns
                ["Address", "City", "State", "Zipcode", "Property class", "Sale date"])).filter
             (fun c => !(outputFront.contains c))
        ++ ["Processed Date"] :=
  claim_C10 ["Address", "City", "State", "Zipcode", "Property class", "Sale date"] (by decide)

/-- The rows of one full address surviving `dedupKeepFirst`: none when the
address was already seen, otherwise exactly the first row carrying it. -/
theorem dedup_filter (A : String) : ∀ (l : List SRecord) (seen : List String),
    (dedupKeepFirst seen l).filter (fun r => r.fullAddress == A)
      = if A ∈ seen then [] else (l.filter (fun r => r.fullAddress == A)).take 1 := by
  intro l
  induction l with
  | nil =>
    intro seen
    by_cases h : A ∈ seen <;> simp [dedupKeepFirst, h]
  | cons r rest ih =>
    intro seen
    by_cases hs : r.fullAddress ∈ seen
    · simp only [dedupKeepFirst, if_pos hs]
      rw [ih seen]
      by_cases hA : A ∈ seen
      · simp [hA]
      · have hr : (r.fullAddress == A) = false := by
          apply beq_eq_false_iff_ne.mpr
          intro hEq
          rw [hEq] at hs
          exact hA hs
        simp [hA, List.filter_cons, hr]
    · simp only [dedupKeepFirst, if_neg hs]
      by_cases hrA : r.fullAddress = A
      · have hbeq : (r.fullAddress == A) = true := beq_iff_eq.mpr hrA
        by_cases hA : A ∈ seen
        · exact absurd (hrA ▸ hA) hs
        · rw [List.filter_cons, List.filter_cons]
          simp only [hbeq, if_pos]
          rw [ih (r.fullAddress :: seen)]
          have : A ∈ r.fullAddress :: seen := by
            rw [hrA]
            exact List.mem_cons_self _ _
          simp [hA, this]
      · have hbeq : (r.fullAddress == A) = false := by simp [hrA]
        rw [List.filter_cons, List.filter_cons]
        simp only [hbeq]
        rw [ih (r.fullAddress :: seen)]
        have hmem : (A ∈ r.fullAddress :: seen) ↔ (A ∈ seen) := by
          constructor
          · intro hin
            rcases List.mem_cons.mp hin with h | h
            · exact absurd h.symm hrA
            · exact h
          · exact fun h => List.mem_cons_of_mem _ h
        by_cases hA : A ∈ seen
        · simp [hA, hmem.mpr hA]
        · have : A ∉ r.fullAddress :: seen := fun hin => hA (hmem.mp hin)
          simp [hA, this]

/-- Claim C7: deduplication keeps the later sale. When exactly two rows of a
batch carry a given full address, with distinct (non-missing) sale dates, the
deduplicated output contains exactly one row with that address, namely the
one with the later date. -/
theorem claim_C7 (rows : List SRecord) (A : String) (r1 r2 : SRecord) (d1 d2 : Nat)
    (hf : rows.filter (fun r => r.fullAddress == A) = [r1, r2])
    (h1 : r1.saleDate = some d1) (h2 : r2.saleDate = some d2) (hne : d1 ≠ d2) :
    (remove_duplicates rows).filter (fun r => r.fullAddress == A)
      = [if d2 < d1 then r1 else r2] := by
  have hdedup := dedup_filter A (List.insertionSort dateGE rows) []
  have hperm : List.Perm
      ((List.insertionSort dateGE rows).filter (fun r => r.fullAddress == A)) [r1, r2] := by
    have hp := (List.perm_insertionSort dateGE rows).filter (fun r => r.fullAddress == A)
    rw [hf] at hp
    exact hp
  have hsorted : List.Sorted dateGE
      ((List.insertionSort dateGE rows).filter (fun r => r.fullAddress == A)) :=
    (List.sorted_insertionSort dateGE rows).filter _
  have hlen : ((List.insertionSort dateGE rows).filter
      (fun r => r.fullAddress == A)).length = 2 := hperm.length_eq
  obtain ⟨x, y, hxy⟩ := List.length_eq_two.mp hlen
  rw [hxy] at hperm hsorted
  have hxmem : x ∈ [r1, r2] := hperm.mem_iff.mp (by simp)
  have hcase : (x = r1 ∧ y = r2) ∨ (x = r2 ∧ y = r1) := by
    rcases List.mem_cons.mp hxmem with hx | hx
    · left
      refine ⟨hx, ?_⟩
      have hp2 := hperm
      rw [hx] at hp2
      simpa using List.perm_singleton.mp hp2.cons_inv
    · have hx2 : x = r2 := by simpa using hx
      right
      refine ⟨hx2, ?_⟩
      have hp2 := hperm
      rw [hx2] at hp2
      simpa using List.perm_singleton.mp ((hp2.trans (List.Perm.swap r2 r1 [])).cons_inv)
  have hout : (remove_duplicates rows).filter (fun r => r.fullAddress == A) = [x] := by
    unfold remove_duplicates
    rw [hdedup]
    simp only [List.not_mem_nil, if_neg]
    rw [hxy]
    simp
  rcases hcase with ⟨hx1, hy1⟩ | ⟨hx1, hy1⟩
  · rw [hx1, hy1] at hsorted
    have hge : dateGE r1 r2 := (List.sorted_cons.mp hsorted).1 r2 (by simp)
    have hlt : d2 < d1 := by
      simp only [dateGE, dKeyN, h1, h2] at hge
      omega
    rw [hout, hx1, if_pos hlt]
  · rw [hx1, hy1] at hsorted
    have hge : dateGE r2 r1 := (List.sorted_cons.mp hsorted).1 r1 (by simp)
    have hlt : d1 < d2 := by
      simp only [dateGE, dKeyN, h1, h2] at hge
      omega
    rw [hout, hx1, if_neg (by omega)]

/-- Witness for claim C7: the theorem applied to a concrete batch with two
rows of one address dated 3 and 7 and an unrelated undated row; the later
sale survives. -/
theorem claim_C7_witness :
    (remove_duplicates
        [⟨"A", some 3, 0⟩, ⟨"A", some 7, 1⟩, ⟨"B", none, 2⟩]).filter
      (fun r => r.fullAddress == "A")
      = [if 7 < 3 then ⟨"A", some 3, 0⟩ else (⟨"A", some 7, 1⟩ : SRecord)] :=
  claim_C7 [⟨"A", some 3, 0⟩, ⟨"A", some 7, 1⟩, ⟨"B", none, 2⟩] "A"
    ⟨"A", some 3, 0⟩ ⟨"A", some 7, 1⟩ 3 7 (by decide) rfl rfl (by decide)
